import Mathlib

/-!
Shallow embedding of the picobot-create repository (src/picobot.py and
src/create.py) and verification of its specification claims.

Text is modelled as `List Char` (the character data of Python strings).
Firmware byte strings are modelled as `List Nat` (one entry per byte,
values 0..255, matching `int.to_bytes` big-endian output in the source).
Python dicts are modelled as association lists built left to right where
a repeated key replaces the earlier value (`dictOf` below), and dict
indexing that can raise `KeyError` is modelled with `Option`.
-/

/-! ## Python dict model -/

/-- Dict insertion: replace the value of an existing key in place, else
append the binding at the end (Python dict update semantics). -/
def insertReplace {κ α : Type} [DecidableEq κ] : List (κ × α) → κ × α → List (κ × α)
  | [], kv => [kv]
  | (k1, v1) :: rest, (k, v) =>
    if k1 = k then (k1, v) :: rest else (k1, v1) :: insertReplace rest (k, v)

/-- Build a dict from bindings in order; later bindings for the same key
overwrite earlier ones (Python dict comprehension semantics). -/
def dictOf {κ α : Type} [DecidableEq κ] (l : List (κ × α)) : List (κ × α) :=
  l.foldl insertReplace []

/-- Dict lookup (`d[k]` returning `none` instead of raising `KeyError`). -/
def alookup {κ α : Type} [DecidableEq κ] (k : κ) : List (κ × α) → Option α
  | [] => none
  | (k1, v) :: rest => if k = k1 then some v else alookup k rest

/-! ## src/picobot.py: parsing

The parser regex is
`(?P<state_num>[0-9]+)\s+(?P<sensor_state>[xXnNsSwWeE*]{4})\s+->\s+(?P<direction>[nNsSwWeE])\s+(?P<new_state>[0-9]+)`
applied with `re.match` (anchored at the start, trailing text allowed),
after discarding every line matching `.*#.*$`, i.e. every line that
contains a `#` character.  Since each character class is disjoint from
`\s`, greedy maximal-munch matching is deterministic and is modelled by
the direct scanner below. -/

/-- One parsed rule: the four named groups of the regex
(`state_num`, `sensor_state`, `direction`, `new_state`).  The direction
group captures exactly one character. -/
structure PRule where
  state_num : List Char
  sensor_state : List Char
  direction : Char
  new_state : List Char
deriving DecidableEq

/-- Greedy nonempty span of characters satisfying `p` (`[c]+` for a class
disjoint from what follows). -/
def span1 (p : Char → Bool) (cs : List Char) : Option (List Char × List Char) :=
  let pre := cs.takeWhile p
  if pre.isEmpty then none else some (pre, cs.dropWhile p)

/-- Character class `[xXnNsSwWeE*]` of the `sensor_state` group. -/
def patChar (c : Char) : Bool :=
  ['x', 'X', 'n', 'N', 's', 'S', 'w', 'W', 'e', 'E', '*'].contains c

/-- Character class `[nNsSwWeE]` of the `direction` group.  Note that the
halt marker `x`/`X` is not in this class. -/
def dirChar (c : Char) : Bool :=
  ['n', 'N', 's', 'S', 'w', 'W', 'e', 'E'].contains c

/-- The anchored match of `state_regex` against a line, yielding its
`groupdict()` when the line is a well-formed rule. -/
def parseLineChars (cs : List Char) : Option PRule := do
  let (num, cs) ← span1 Char.isDigit cs
  let (_, cs) ← span1 Char.isWhitespace cs
  match cs with
  | a :: b :: c :: d :: cs =>
    if patChar a && patChar b && patChar c && patChar d then do
      let (_, cs) ← span1 Char.isWhitespace cs
      match cs with
      | '-' :: '>' :: cs => do
        let (_, cs) ← span1 Char.isWhitespace cs
        match cs with
        | dch :: cs =>
          if dirChar dch then do
            let (_, cs) ← span1 Char.isWhitespace cs
            let (ns, _) ← span1 Char.isDigit cs
            some ⟨num, [a, b, c, d], dch, ns⟩
          else none
        | [] => none
      | _ => none
    else none
  | _ => none

/-- Matching `state_regex` against a raw input line. -/
def parseLine (s : String) : Option PRule :=
  parseLineChars s.data

/-- The well-formed rules of the input, in declaration order: comment
lines (containing `#`) are discarded whole, lines that fail the regex are
silently dropped. -/
def wellFormedRules (lines : List String) : List PRule :=
  (lines.filter (fun s => !(s.data.contains '#'))).filterMap parseLine

/-- Grouping as `itertools.groupby` keyed on `state_num`: consecutive runs of rules
with the same state number, in order. -/
def groupConsecutive : List PRule → List (List Char × List PRule)
  | [] => []
  | r :: rs =>
    match groupConsecutive rs with
    | [] => [(r.state_num, [r])]
    | (k, g) :: rest =>
      if r.state_num = k then (k, r :: g) :: rest
      else (r.state_num, [r]) :: (k, g) :: rest

/-- Embeds `parse`: group the well-formed rules by state number with `groupby`,
then collect the groups into a dict (a later run for the same state
number overwrites an earlier one). -/
def parse (lines : List String) : List (List Char × List PRule) :=
  dictOf (groupConsecutive (wellFormedRules lines))

/-! ## Direction integer encodings

The two modules encode compass directions as integers inconsistently:
`picobot.direction_map` maps N,E,W,S to 0,1,2,3 while
`create.direction_map` (and the `Create` class constants NORTH, SOUTH,
EAST, WEST) map N,E,W,S to 0,2,3,1. -/

/-- Embeds the picobot-module direction map (picobot.py line 45): it
maps N, E, W, S to 0, 1, 2, 3. -/
def picobot_direction_map : List (Char × Nat) :=
  [('N', 0), ('E', 1), ('W', 2), ('S', 3)]

/-- Embeds the create-module direction map (create.py line 7): it
maps N, E, W, S to 0, 2, 3, 1. -/
def create_direction_map : List (Char × Nat) :=
  [('N', 0), ('E', 2), ('W', 3), ('S', 1)]

/-- Total dict indexing for the direction maps (all uses in the source
index with a key that is present; `0` is a dummy default). -/
def clookup (m : List (Char × Nat)) (c : Char) : Nat :=
  match m with
  | [] => 0
  | (k, v) :: rest => if c = k then v else clookup rest c

/-! ## src/create.py: byte constants

Each constant is the exact byte string built by `int.to_bytes` in the
source (big endian, two's complement for the signed 16-bit values). -/

namespace Create

def START : List Nat := [128]
def FULL_MODE : List Nat := [132]
def DRIVE : List Nat := [137]
def READ_BUMPER : List Nat := [142, 7]
def WAIT_DIST : List Nat := [156]
def WAIT_ANGLE : List Nat := [157]

/-- Bytes of 200 as a signed big-endian 16-bit value. -/
def SLOW_FORWARD : List Nat := [0, 200]
/-- Bytes of -200 as a signed big-endian 16-bit value, 0xFF38. -/
def SLOW_BACKWARD : List Nat := [255, 56]
/-- Bytes of 0 as a big-endian 16-bit value. -/
def STATIONARY : List Nat := [0, 0]

/-- Bytes of hex 8000. -/
def STRAIGHT : List Nat := [128, 0]
/-- Bytes of hex ffff. -/
def CLOCKWISE : List Nat := [255, 255]
/-- Bytes of hex 0001. -/
def COUNTER : List Nat := [0, 1]

/-- Bytes of 100 as a signed big-endian 16-bit value. -/
def STRIDE : List Nat := [0, 100]
/-- Bytes of 50 as a signed big-endian 16-bit value. -/
def BUMP : List Nat := [0, 50]
/-- Bytes of -50 as a signed big-endian 16-bit value, 0xFFCE. -/
def UNBUMP : List Nat := [255, 206]

/-- Bytes of -90 as a signed big-endian 16-bit value, 0xFFA6. -/
def RIGHT_ANGLE_CLOCKWISE : List Nat := [255, 166]
/-- Bytes of 90 as a signed big-endian 16-bit value. -/
def RIGHT_ANGLE_COUNTER : List Nat := [0, 90]
/-- Bytes of -180 as a signed big-endian 16-bit value, 0xFF4C. -/
def ONE80_CLOCKWISE : List Nat := [255, 76]
/-- Bytes of 180 as a signed big-endian 16-bit value. -/
def ONE80_COUNTER : List Nat := [0, 180]
/-- Bytes of 0 as a signed big-endian 16-bit value. -/
def NO_TURN : List Nat := [0, 0]

/-- Embeds `Create.turn_map`: row index = current orientation, column index =
target direction, both in the `Create` encoding N=0, S=1, E=2, W=3; each
entry is `(rotation sense byte pair, signed angle byte pair)`. -/
def turn_map : List (List (List Nat × List Nat)) :=
  [ [ (STRAIGHT, NO_TURN),
      (CLOCKWISE, ONE80_CLOCKWISE),
      (CLOCKWISE, RIGHT_ANGLE_CLOCKWISE),
      (COUNTER, RIGHT_ANGLE_COUNTER) ],
    [ (COUNTER, ONE80_COUNTER),
      (STRAIGHT, NO_TURN),
      (COUNTER, RIGHT_ANGLE_COUNTER),
      (CLOCKWISE, RIGHT_ANGLE_CLOCKWISE) ],
    [ (COUNTER, RIGHT_ANGLE_COUNTER),
      (CLOCKWISE, RIGHT_ANGLE_CLOCKWISE),
      (STRAIGHT, NO_TURN),
      (CLOCKWISE, ONE80_CLOCKWISE) ],
    [ (CLOCKWISE, RIGHT_ANGLE_CLOCKWISE),
      (COUNTER, RIGHT_ANGLE_COUNTER),
      (COUNTER, ONE80_COUNTER),
      (STRAIGHT, NO_TURN) ] ]

/-- Entry of `turn_map` at row o, column d (both indices are < 4 at every call site; the
default entry is a dummy for totality). -/
def turnEntry (o d : Nat) : List Nat × List Nat :=
  ((turn_map.getD o []).getD d (STRAIGHT, NO_TURN))

/-!
The three command-emitting methods.  A `Create` session's only state
visible to this model is its `orientation` field (initialised to
`NORTH = 0`); each method is embedded as a pure function from the current
orientation (plus parameters) to the list of logical firmware commands it
sends, in order, together with the orientation after the call.  The
source concatenates some of these commands into a single `send` call;
the byte stream on the wire is the concatenation either way.
-/

/-- Embeds `face_direction`: look up the turn in `turn_map`, send
turn command + wait-for-angle + stop, set `orientation := direction`. -/
def face_direction (o d : Nat) : List (List Nat) × Nat :=
  let td := turnEntry o d
  ([DRIVE ++ SLOW_FORWARD ++ td.1,
    WAIT_ANGLE ++ td.2,
    DRIVE ++ STATIONARY ++ STRAIGHT], d)

/-- Embeds `drive`: reorient if needed, then send
forward-drive + wait-for-distance(STRIDE) + stop. -/
def drive (o d : Nat) : List (List Nat) × Nat :=
  let pre := if o ≠ d then face_direction o d else ([], o)
  (pre.1 ++
    [DRIVE ++ SLOW_FORWARD ++ STRAIGHT,
     WAIT_DIST ++ STRIDE,
     DRIVE ++ STATIONARY ++ STRAIGHT], pre.2)

/-- Embeds `check_direction`: reorient if needed, then probe: forward-drive,
wait BUMP, read the bumper sensor packet, backward-drive, wait UNBUMP;
the returned Bool is blocked = left or right bumper bit of the byte read
from the connection. -/
def check_direction (o d : Nat) (bumper_data : Nat) : List (List Nat) × Nat × Bool :=
  let pre := if o ≠ d then face_direction o d else ([], o)
  let left_bumper := decide (bumper_data &&& 2 > 0)
  let right_bumper := decide (bumper_data &&& 1 > 0)
  (pre.1 ++
    [DRIVE ++ SLOW_FORWARD ++ STRAIGHT,
     WAIT_DIST ++ BUMP,
     READ_BUMPER,
     DRIVE ++ SLOW_BACKWARD ++ STRAIGHT,
     WAIT_DIST ++ UNBUMP], pre.2, left_bumper || right_bumper)

end Create

/-! ## src/picobot.py: state-machine compilation -/

/-- The uppercased sensor_state field of a parsed rule. -/
def upperPat (e : PRule) : List Char :=
  e.sensor_state.map Char.toUpper

/-- The axis letters one rule pattern contributes to the poll list:
position 0 is N, 1 is E, 2 is W, 3 is S; a position contributes unless
its slot is `*` (the body of the loop in `make_state_machine`). -/
def ruleDirections (p : List Char) : List Char :=
  (if p.getD 0 ' ' ≠ '*' then ['N'] else []) ++
  (if p.getD 1 ' ' ≠ '*' then ['E'] else []) ++
  (if p.getD 2 ' ' ≠ '*' then ['W'] else []) ++
  (if p.getD 3 ' ' ≠ '*' then ['S'] else [])

/-- The poll set of a state: the letters contributed by all its rules,
deduplicated (`set(directions)` in the source; Python set iteration order
is unspecified, so only membership is meaningful). -/
def stateDirections (edges : List PRule) : List Char :=
  ((edges.map upperPat).map ruleDirections).flatten.dedup

/-- A compiled state: the poll list paired with `create.direction_map`
codes, the `sensor_states` dict from uppercased pattern to
`(direction.upper(), new_state)`, and the ordered uppercased pattern
list. -/
abbrev Entry :=
  List (Char × Nat) × List (List Char × (Char × List Char)) × List (List Char)

/-- The per-state body of `make_state_machine`. -/
def compileState (edges : List PRule) : Entry :=
  let direction_sets := edges.map upperPat
  let directions := (direction_sets.map ruleDirections).flatten.dedup
  let directionsCoded := directions.map (fun c => (c, clookup create_direction_map c))
  let sensor_states :=
    dictOf (edges.map (fun e => (upperPat e, (e.direction.toUpper, e.new_state))))
  (directionsCoded, sensor_states, direction_sets)

/-- Embeds `make_state_machine`: compile every state of the parsed program. -/
def make_state_machine (states : List (List Char × List PRule)) :
    List (List Char × Entry) :=
  states.map (fun kv => (kv.1, compileState kv.2))

/-! ## src/picobot.py: execution -/

/-- Wildcard match of one rule pattern against the observed sensor word:
at each of the four positions the pattern slot equals the observed slot
or is `*` (the inner loop of `transition`). -/
def patMatch (pat sensor : List Char) : Bool :=
  (List.range 4).all
    (fun i => pat.getD i ' ' == sensor.getD i ' ' || pat.getD i ' ' == '*')

/-- The sentinel string `transition` returns when no pattern matches. -/
def noSuchState : List Char := "No such state".data

/-- Embeds `transition`: scan the ordered pattern list, return the first pattern
that matches the observed word, else the sentinel. -/
def transition (sensor : List Char) : List (List Char) → List Char
  | [] => noSuchState
  | p :: rest => if patMatch p sensor then p else transition sensor rest

/-- Assemble the observed sensor word (lines 99-102 of
`run_state_machine`): start from four stars, and for each polled axis set
its slot (at index `picobot.direction_map[name]`) to the axis letter if
the probe reported blocked, else to `X`. -/
def buildSensorWord (direction_states : List (Char × Bool)) : List Char :=
  direction_states.foldl
    (fun acc nb =>
      acc.set (clookup picobot_direction_map nb.1) (if nb.2 then nb.1 else 'X'))
    "****".data

/-- The polling phase of one engine step: probe each axis of the compiled
poll list in order with `create.check_direction`, threading the robot's
orientation; `bump` gives the bumper byte the connection returns when
probing a given direction code.  Returns the emitted commands, the final
orientation, and the `(name, blocked)` list (`direction_states`). -/
def pollPhase (dirs : List (Char × Nat)) (o : Nat) (bump : Nat → Nat) :
    List (List Nat) × Nat × List (Char × Bool) :=
  match dirs with
  | [] => ([], o, [])
  | (n, code) :: rest =>
    let cd := Create.check_direction o code (bump code)
    let tail := pollPhase rest cd.2.1 bump
    (cd.1 ++ tail.1, tail.2.1, (n, cd.2.2) :: tail.2.2)

/-- What one engine step did. -/
inductive StepResult
  | halt
  | move (dir : Char) (newState : List Char)
  | stuck
deriving DecidableEq

/-- Observable outcome of one engine step: the polled axes with their
blocked results, the observed sensor word, the outcome, all firmware
commands emitted during the step, and the robot orientation after. -/
structure StepOut where
  polled : List (Char × Bool)
  sensor : List Char
  outcome : StepResult
  cmds : List (List Nat)
  orientation : Nat
deriving DecidableEq

/-- One iteration of the `while True` loop of `run_state_machine` for a
given compiled state entry.  `.stuck` models the uncaught `KeyError`
raised by `transition_states[...]` when `transition` returns the
sentinel: the engine dies before issuing any move or transition.  On a
move, the engine calls `create.drive(picobot.direction_map[direction])`
(note: the picobot-module map, not the create-module map). -/
def engineStepEntry (entry : Entry) (o : Nat) (bump : Nat → Nat) : StepOut :=
  let pp := pollPhase entry.1 o bump
  let sensor := buildSensorWord pp.2.2
  match alookup (transition sensor entry.2.2) entry.2.1 with
  | none => ⟨pp.2.2, sensor, .stuck, pp.1, pp.2.1⟩
  | some dn =>
    if dn.1 = 'X' then ⟨pp.2.2, sensor, .halt, pp.1, pp.2.1⟩
    else
      let dr := Create.drive pp.2.1 (clookup picobot_direction_map dn.1)
      ⟨pp.2.2, sensor, .move dn.1 dn.2, pp.1 ++ dr.1, dr.2⟩

/-- One engine step from a named state of the machine (`machine[state]`
raising `KeyError` on a missing state is modelled by `none`). -/
def engineStep (machine : List (List Char × Entry)) (state : List Char)
    (o : Nat) (bump : Nat → Nat) : Option StepOut :=
  (alookup state machine).map (fun e => engineStepEntry e o bump)

/-! ## Derived and spec-side definitions used by the claims -/

/-- The action-selection step of the engine (line 104 of
`run_state_machine`): look the pattern returned by `transition` up in the
`sensor_states` dict; `none` models the `KeyError`. -/
def selectAction (entry : Entry) (sensor : List Char) : Option (Char × List Char) :=
  alookup (transition sensor entry.2.2) entry.2.1

/-- Modelled from the spec wording of C4: the action of the
lowest-declaration-index rule of the state whose pattern matches the
observed word under wildcard semantics. -/
def specFirstMatch (edges : List PRule) (sensor : List Char) : Option (Char × List Char) :=
  (edges.find? (fun e => patMatch (upperPat e) sensor)).map
    (fun e => (e.direction.toUpper, e.new_state))

/-- Modelled from the spec wording of C1: axes in the poll set get `X`
if blocked else their own letter (the converse of what the code does). -/
def specBuildSensorWord (direction_states : List (Char × Bool)) : List Char :=
  direction_states.foldl
    (fun acc nb =>
      acc.set (clookup picobot_direction_map nb.1) (if nb.2 then 'X' else nb.1))
    "****".data

/-- Modelled from the spec wording of C5: all well-formed rules declared
for a state, in declaration order, contiguous or not. -/
def specStateRules (lines : List String) (k : List Char) : List PRule :=
  (wellFormedRules lines).filter (fun r => decide (r.state_num = k))

/-- Decode a 16-bit byte pair as a signed big-endian value (the inverse
of the to_bytes calls used for the byte constants above). -/
def int16 (b : List Nat) : Int :=
  let v := b.getD 0 0 * 256 + b.getD 1 0
  if v ≥ 32768 then (v : Int) - 65536 else (v : Int)

/-- Compass heading, in clockwise degrees from North, of a direction in
the `Create` integer encoding (N=0, S=1, E=2, W=3). -/
def headingDeg (i : Nat) : Int :=
  [0, 180, 90, 270].getD i 0

/-- The minimal rotation magnitude, in degrees, between two headings in
the `Create` encoding. -/
def minMagnitude (o d : Nat) : Nat :=
  min (((headingDeg d - headingDeg o) % 360).toNat)
      (((headingDeg o - headingDeg d) % 360).toNat)

/-- The signed minimal turn angle from `o` to `d` in the `Create` angle
convention (positive = counter-clockwise), with the 180-degree tie
broken exactly as `turn_map` breaks it: clockwise when `o < d` in the
integer encoding, counter-clockwise otherwise. -/
def minimalTurnAngle (o d : Nat) : Int :=
  let delta := (headingDeg d - headingDeg o) % 360
  if delta = 0 then 0
  else if delta < 180 then -delta
  else if delta = 180 then (if o < d then -180 else 180)
  else 360 - delta

/-- The stop command: a drive command with zero velocity. -/
def stopCmd : List Nat := Create.DRIVE ++ Create.STATIONARY ++ Create.STRAIGHT

/-- A firmware command that sets the agent in motion: a DRIVE opcode with
a non-zero 16-bit velocity field. -/
def isMotionCmd : List Nat → Bool
  | op :: v1 :: v2 :: _ => op == 137 && !(v1 == 0 && v2 == 0)
  | _ => false

/-- Every motion command in the list is followed (strictly later in the
list) by an explicit stop command. -/
def stopsAfterMotion : List (List Nat) → Bool
  | [] => true
  | c :: rest => (!(isMotionCmd c) || rest.contains stopCmd) && stopsAfterMotion rest

/-- Whether a command list contains a turn (a wait-for-angle command is
emitted by `face_direction` and nowhere else). -/
def containsTurn (cs : List (List Nat)) : Bool :=
  cs.any (fun c => c.take 1 == Create.WAIT_ANGLE)

/-- Left-biased choice on `Option` (used to state dict-lookup lemmas). -/
def oor {α : Type} : Option α → Option α → Option α
  | some v, _ => some v
  | none, b => b

/-! ## Dictionary lemmas -/

theorem oor_none {α : Type} (a : Option α) : oor a none = a := by
  cases a <;> rfl

theorem alookup_insertReplace {κ α : Type} [DecidableEq κ]
    (m : List (κ × α)) (k0 : κ) (v0 : α) (k : κ) :
    alookup k (insertReplace m (k0, v0)) =
      if k = k0 then some v0 else alookup k m := by
  induction m with
  | nil => simp [insertReplace, alookup]
  | cons hd tl ih =>
    obtain ⟨k1, v1⟩ := hd
    by_cases h1 : k1 = k0
    · subst h1
      simp only [insertReplace, if_pos rfl, alookup]
      split_ifs <;> simp_all
    · simp only [insertReplace, if_neg h1, alookup, ih]
      split_ifs with h2 h3 <;> simp_all

theorem alookup_append {κ α : Type} [DecidableEq κ]
    (l1 l2 : List (κ × α)) (k : κ) :
    alookup k (l1 ++ l2) = oor (alookup k l1) (alookup k l2) := by
  induction l1 with
  | nil => simp [alookup, oor]
  | cons hd tl ih =>
    obtain ⟨k1, v1⟩ := hd
    simp only [List.cons_append, alookup]
    split_ifs with h <;> simp [oor, ih]

theorem alookup_foldl_insertReplace {κ α : Type} [DecidableEq κ]
    (l : List (κ × α)) (acc : List (κ × α)) (k : κ) :
    alookup k (l.foldl insertReplace acc) =
      oor (alookup k l.reverse) (alookup k acc) := by
  induction l generalizing acc with
  | nil => simp [alookup, oor]
  | cons hd tl ih =>
    obtain ⟨k0, v0⟩ := hd
    simp only [List.foldl_cons, ih, List.reverse_cons, alookup_append]
    rw [alookup_insertReplace]
    have hsingle : alookup k [(k0, v0)] = if k = k0 then some v0 else none := by
      simp [alookup]
    rw [hsingle]
    cases halo : alookup k tl.reverse <;> split_ifs <;> simp [oor]

theorem alookup_dictOf {κ α : Type} [DecidableEq κ] (l : List (κ × α)) (k : κ) :
    alookup k (dictOf l) = alookup k l.reverse := by
  rw [dictOf, alookup_foldl_insertReplace]
  cases h : alookup k l.reverse <;> simp [oor, alookup]

theorem alookup_eq_none_of_not_mem {κ α : Type} [DecidableEq κ]
    (l : List (κ × α)) (k : κ) (h : k ∉ l.map Prod.fst) :
    alookup k l = none := by
  induction l with
  | nil => rfl
  | cons hd tl ih =>
    obtain ⟨k1, v1⟩ := hd
    simp only [List.map_cons, List.mem_cons] at h
    push_neg at h
    simp only [alookup, if_neg h.1]
    exact ih h.2

theorem alookup_reverse_of_nodup {κ α : Type} [DecidableEq κ]
    (l : List (κ × α)) (k : κ) (h : (l.map Prod.fst).Nodup) :
    alookup k l.reverse = alookup k l := by
  induction l with
  | nil => rfl
  | cons hd tl ih =>
    obtain ⟨k1, v1⟩ := hd
    simp only [List.map_cons, List.nodup_cons] at h
    rw [List.reverse_cons, alookup_append]
    by_cases hk : k = k1
    · subst hk
      have hnone : alookup k tl.reverse = none := by
        apply alookup_eq_none_of_not_mem
        rw [List.map_reverse, List.mem_reverse]
        exact h.1
      simp [hnone, oor, alookup]
    · have hsingle : alookup k [(k1, v1)] = (none : Option α) := by
        simp [alookup, hk]
      rw [hsingle, oor_none, ih h.2]
      simp [alookup, hk]

theorem alookup_dictOf_nodup {κ α : Type} [DecidableEq κ]
    (l : List (κ × α)) (k : κ) (h : (l.map Prod.fst).Nodup) :
    alookup k (dictOf l) = alookup k l := by
  rw [alookup_dictOf, alookup_reverse_of_nodup l k h]

/-! ## Claim C1: sensor-word assembly -/

/-- Claim C1 counterexample: with the North axis polled and the probe
reporting blocked, the engine writes the axis letter `N` into the slot,
not `X` as the claim states; the claim's own assembly
(`specBuildSensorWord`) disagrees with the code's. -/
theorem c1_counterexample :
    buildSensorWord [('N', true)] = ['N', '*', '*', '*']
    ∧ specBuildSensorWord [('N', true)] = ['X', '*', '*', '*']
    ∧ buildSensorWord [('N', true)] ≠ specBuildSensorWord [('N', true)] := by
  decide

/-! ## Claim C2: halt-marker lines -/

/-- Claim C2 (code bug): an otherwise well-formed rule line whose
direction field is the halt marker `X` is rejected by the parser (its
direction character class is `[nNsSwWeE]`), although the execution
engine does terminate successfully when it selects a rule whose stored
direction is `X` — a dead code path for parsed programs. -/
theorem c2_halt_line :
    parseLine "0 **** -> X 0" = none
    ∧ parseLine "0 **** -> E 0" = some ⟨['0'], ['*', '*', '*', '*'], 'E', ['0']⟩
    ∧ (engineStepEntry
        (compileState [⟨['0'], ['*', '*', '*', '*'], 'X', ['0']⟩])
        0 (fun _ => 0)).outcome = .halt := by
  decide

/-! ## Claim C3: spec Scenario B -/

/-- Claim C3 (code bug): on the program `0 X*** -> E 1` / `0 N*** -> X 0`
with the connection reporting a bumper hit on the North probe, the halt
line is dropped by the parser, the step polls only North (as claimed)
but produces the observed word `N***` (blocked maps to the letter), which
matches no surviving rule: the engine dies in a `KeyError` after the
probe commands, with no turn, no drive, and no transition to state 1.
Additionally the two direction encodings the engine mixes disagree
on `E`. -/
theorem c3_scenario :
    parseLine "0 N*** -> X 0" = none
    ∧ engineStep (make_state_machine (parse ["0 X*** -> E 1", "0 N*** -> X 0"]))
        ['0'] 0 (fun c => if c == 0 then 1 else 0)
      = some ⟨[('N', true)], ['N', '*', '*', '*'], .stuck,
          [[137, 0, 200, 128, 0], [156, 0, 50], [142, 7],
           [137, 255, 56, 128, 0], [156, 255, 206]], 0⟩
    ∧ clookup picobot_direction_map 'E' ≠ clookup create_direction_map 'E' := by
  decide

/-! ## Claim C4: first-match discipline (counterexample half) -/

/-- Claim C4 counterexample: two rules of the same state with
character-identical patterns: the engine's dict lookup executes the
action of the second (last) rule, while the claim demands the first
rule's action. -/
theorem c4_counterexample :
    selectAction
      (compileState [⟨['0'], ['N', '*', '*', '*'], 'E', ['1']⟩,
                     ⟨['0'], ['N', '*', '*', '*'], 'W', ['2']⟩])
      ['N', '*', '*', '*'] = some ('W', ['2'])
    ∧ specFirstMatch [⟨['0'], ['N', '*', '*', '*'], 'E', ['1']⟩,
                      ⟨['0'], ['N', '*', '*', '*'], 'W', ['2']⟩]
        ['N', '*', '*', '*'] = some ('E', ['1'])
    ∧ (some (('W' : Char), (['2'] : List Char))) ≠ some (('E' : Char), (['1'] : List Char)) := by
  decide

/-! ## Claim C5: grouping by state number (counterexample half) -/

/-- Claim C5 counterexample: a program whose state-0 lines are not
contiguous: `parse` keeps only the last contiguous run for state 0
(dict overwrite after `itertools.groupby`), not all declared rules. -/
theorem c5_counterexample :
    alookup ['0'] (parse ["0 **** -> N 0", "1 **** -> N 1", "0 **** -> E 0"])
      = some [⟨['0'], ['*', '*', '*', '*'], 'E', ['0']⟩]
    ∧ specStateRules ["0 **** -> N 0", "1 **** -> N 1", "0 **** -> E 0"] ['0']
      = [⟨['0'], ['*', '*', '*', '*'], 'N', ['0']⟩,
         ⟨['0'], ['*', '*', '*', '*'], 'E', ['0']⟩]
    ∧ alookup ['0'] (parse ["0 **** -> N 0", "1 **** -> N 1", "0 **** -> E 0"])
      ≠ some (specStateRules ["0 **** -> N 0", "1 **** -> N 1", "0 **** -> E 0"] ['0']) := by
  decide

/-! ## Claim C6: turn table -/

/-- Claim C6 counterexample: the two opposite pairs North→South and
South→North (Create codes 0 and 1) use different rotation senses, so no
single fixed sense covers all opposite headings. -/
theorem c6_counterexample :
    (Create.turnEntry 0 1).1 = Create.CLOCKWISE
    ∧ (Create.turnEntry 1 0).1 = Create.COUNTER
    ∧ Create.CLOCKWISE ≠ Create.COUNTER
    ∧ int16 (Create.turnEntry 0 1).2 = -180
    ∧ int16 (Create.turnEntry 1 0).2 = 180 := by
  decide

/-- Claim C6 (amended): for every pair of headings the turn-table entry
reaches the target heading, its magnitude is the minimal rotation
magnitude (0 for identical, 90 for adjacent, 180 for opposite headings),
its sense byte agrees with the sign of its angle, and its signed angle
equals the minimal turn with the 180-degree tie broken clockwise exactly
when the source heading's integer code is smaller (N→S and E→W clockwise,
S→N and W→E counter-clockwise) — not one fixed sense for all opposite
pairs. -/
theorem c6_turn_table :
    ∀ (o d : Fin 4),
      (headingDeg o.val - int16 (Create.turnEntry o.val d.val).2) % 360
          = headingDeg d.val
      ∧ (int16 (Create.turnEntry o.val d.val).2).natAbs = minMagnitude o.val d.val
      ∧ int16 (Create.turnEntry o.val d.val).2 = minimalTurnAngle o.val d.val
      ∧ (Create.turnEntry o.val d.val).1
          = (if minimalTurnAngle o.val d.val < 0 then Create.CLOCKWISE
             else if minimalTurnAngle o.val d.val = 0 then Create.STRAIGHT
             else Create.COUNTER) := by
  decide

/-! ## Claim C9: motion commands paired with stops -/

/-- Claim C9 counterexample: the probe operation (`check_direction` with
orientation already facing the probed axis) emits motion commands that
are never followed by a stop command; its final command sequence ends
with a non-zero-velocity backward drive. -/
theorem c9_counterexample :
    stopsAfterMotion (Create.check_direction 0 0 0).1 = false
    ∧ isMotionCmd (Create.DRIVE ++ Create.SLOW_BACKWARD ++ Create.STRAIGHT) = true := by
  decide

/-- Claim C9 (amended): in the turning operation and the forward-drive
operation every non-zero-velocity motion command is followed by an
explicit stop command, but in the probe operation it never is: neither
the forward probe segment nor the compensating reverse segment is
followed by a zero-velocity drive command, for every orientation pair. -/
theorem c9_stop_pairing :
    ∀ (o d : Fin 4) (b : Nat),
      stopsAfterMotion (Create.drive o.val d.val).1 = true
      ∧ stopsAfterMotion (Create.face_direction o.val d.val).1 = true
      ∧ stopsAfterMotion (Create.check_direction o.val d.val b).1 = false := by
  intro o d b
  have hb : (Create.check_direction o.val d.val b).1
      = (Create.check_direction o.val d.val 0).1 := rfl
  rw [hb]
  clear hb
  revert o d
  decide

/-! ## Claim C10: orientation after drive and probe -/

/-- Claim C10 (confirmed): after `drive(d)` or `check_direction(d)` the
session's orientation equals `d`, and a turn (a wait-for-angle command)
is emitted exactly when the orientation differed from `d` beforehand;
the reorientation commands precede the operation's own body. -/
theorem c10_orientation :
    ∀ (o d b : Nat),
      (Create.drive o d).2 = d
      ∧ (Create.check_direction o d b).2.1 = d
      ∧ containsTurn (Create.drive o d).1 = decide (o ≠ d)
      ∧ containsTurn (Create.check_direction o d b).1 = decide (o ≠ d) := by
  intro o d b
  by_cases h : o = d
  · subst h
    simp [Create.drive, Create.check_direction, Create.face_direction,
      containsTurn, Create.DRIVE, Create.SLOW_FORWARD, Create.STRAIGHT,
      Create.WAIT_DIST, Create.STRIDE, Create.STATIONARY, Create.BUMP,
      Create.READ_BUMPER, Create.SLOW_BACKWARD, Create.UNBUMP,
      Create.WAIT_ANGLE]
  · simp [Create.drive, Create.check_direction, Create.face_direction, h,
      containsTurn, Create.DRIVE, Create.SLOW_FORWARD, Create.STRAIGHT,
      Create.WAIT_DIST, Create.STRIDE, Create.STATIONARY, Create.BUMP,
      Create.READ_BUMPER, Create.SLOW_BACKWARD, Create.UNBUMP,
      Create.WAIT_ANGLE]

/-! ## Sensor-word fold lemmas and Claim C1 (amended) -/

theorem sensorFold_getD_not_mem (ds : List (Char × Bool)) (acc : List Char) (i : Nat)
    (h : ∀ nb ∈ ds, clookup picobot_direction_map nb.1 ≠ i) :
    (ds.foldl
      (fun acc2 nb =>
        acc2.set (clookup picobot_direction_map nb.1) (if nb.2 then nb.1 else 'X'))
      acc).getD i ' ' = acc.getD i ' ' := by
  induction ds generalizing acc with
  | nil => rfl
  | cons hd tl ih =>
    simp only [List.foldl_cons]
    rw [ih _ (fun nb hnb => h nb (List.mem_cons_of_mem _ hnb))]
    rw [List.getD_eq_getElem?_getD, List.getD_eq_getElem?_getD,
      List.getElem?_set_ne (h hd (List.mem_cons_self _ _))]

theorem sensorFold_getD_mem (ds : List (Char × Bool)) (acc : List Char)
    (hlen : acc.length = 4)
    (hnd : (ds.map (fun nb => clookup picobot_direction_map nb.1)).Nodup)
    (hlt : ∀ nb ∈ ds, clookup picobot_direction_map nb.1 < 4)
    (nb0 : Char × Bool) (hmem : nb0 ∈ ds) :
    (ds.foldl
      (fun acc2 nb =>
        acc2.set (clookup picobot_direction_map nb.1) (if nb.2 then nb.1 else 'X'))
      acc).getD (clookup picobot_direction_map nb0.1) ' '
      = (if nb0.2 then nb0.1 else 'X') := by
  induction ds generalizing acc with
  | nil => cases hmem
  | cons hd tl ih =>
    simp only [List.foldl_cons]
    rcases List.mem_cons.mp hmem with heq | hmemtl
    · subst heq
      have hnotin : ∀ nb ∈ tl,
          clookup picobot_direction_map nb.1 ≠ clookup picobot_direction_map nb0.1 := by
        intro nb hnb hcontra
        simp only [List.map_cons, List.nodup_cons] at hnd
        exact hnd.1 (by rw [← hcontra]; exact List.mem_map_of_mem _ hnb)
      rw [sensorFold_getD_not_mem tl _ _ hnotin]
      rw [List.getD_eq_getElem?_getD,
        List.getElem?_set_self (by rw [hlen]; exact hlt nb0 hmem)]
      rfl
    · apply ih
      · rw [List.length_set]; exact hlen
      · simp only [List.map_cons, List.nodup_cons] at hnd
        exact hnd.2
      · exact fun nb hnb => hlt nb (List.mem_cons_of_mem _ hnb)
      · exact hmemtl

/-- Claim C1 (amended): for every poll list without repeated axes drawn
from {N,E,W,S} and every set of probe outcomes, the observed sensor word
holds, at the slot of each polled axis, the axis's own letter when the
probe reported blocked and `X` when it reported clear (the converse of
the claimed assembly), and `*` at every slot whose axis was not
polled. -/
theorem c1_sensor_assembly (ds : List (Char × Bool))
    (hnd : (ds.map Prod.fst).Nodup)
    (hsub : ∀ c ∈ ds.map Prod.fst, c ∈ (['N', 'E', 'W', 'S'] : List Char)) :
    (∀ nb ∈ ds, (buildSensorWord ds).getD (clookup picobot_direction_map nb.1) ' '
        = (if nb.2 then nb.1 else 'X'))
    ∧ (∀ c ∈ (['N', 'E', 'W', 'S'] : List Char), c ∉ ds.map Prod.fst →
        (buildSensorWord ds).getD (clookup picobot_direction_map c) ' ' = '*') := by
  have hinj : ∀ x ∈ (['N', 'E', 'W', 'S'] : List Char),
      ∀ y ∈ (['N', 'E', 'W', 'S'] : List Char),
      clookup picobot_direction_map x = clookup picobot_direction_map y → x = y := by
    decide
  have hlt4 : ∀ c ∈ (['N', 'E', 'W', 'S'] : List Char),
      clookup picobot_direction_map c < 4 := by decide
  have hndidx : (ds.map (fun nb => clookup picobot_direction_map nb.1)).Nodup := by
    have : (ds.map (fun nb => clookup picobot_direction_map nb.1))
        = (ds.map Prod.fst).map (fun c => clookup picobot_direction_map c) := by
      rw [List.map_map]; rfl
    rw [this]
    exact List.Nodup.map_on
      (fun x hx y hy hxy => hinj x (hsub x hx) y (hsub y hy) hxy) hnd
  have hlt : ∀ nb ∈ ds, clookup picobot_direction_map nb.1 < 4 :=
    fun nb hnb => hlt4 nb.1 (hsub nb.1 (List.mem_map_of_mem _ hnb))
  constructor
  · intro nb hmem
    exact sensorFold_getD_mem ds "****".data (by decide) hndidx hlt nb hmem
  · intro c hc hnot
    have hne : ∀ nb ∈ ds,
        clookup picobot_direction_map nb.1 ≠ clookup picobot_direction_map c := by
      intro nb hnb hcontra
      exact hnot (by
        rw [← hinj nb.1 (hsub nb.1 (List.mem_map_of_mem _ hnb)) c hc hcontra]
        exact List.mem_map_of_mem _ hnb)
    show (ds.foldl _ "****".data).getD (clookup picobot_direction_map c) ' ' = '*'
    rw [sensorFold_getD_not_mem ds "****".data _ hne]
    simp only [List.mem_cons, List.not_mem_nil, or_false] at hc
    rcases hc with rfl | rfl | rfl | rfl <;> decide

/-- Witness for `c1_sensor_assembly` at a concrete poll list: North
polled and blocked gives slot 0 = `N`, East polled and clear gives
slot 1 = `X`, the unpolled South slot stays `*`. -/
theorem c1_sensor_assembly_witness :
    (buildSensorWord [('N', true), ('E', false)]).getD 0 ' ' = 'N'
    ∧ (buildSensorWord [('N', true), ('E', false)]).getD 1 ' ' = 'X'
    ∧ (buildSensorWord [('N', true), ('E', false)]).getD 3 ' ' = '*' :=
  have h := c1_sensor_assembly [('N', true), ('E', false)] (by decide) (by decide)
  ⟨h.1 ('N', true) (by decide), h.1 ('E', false) (by decide),
    h.2 'S' (by decide) (by decide)⟩

/-! ## Poll-set lemmas and Claim C7 -/

theorem mem_ruleDirections (c : Char) (p : List Char) :
    c ∈ ruleDirections p ↔
      ((c = 'N' ∧ p.getD 0 ' ' ≠ '*') ∨ (c = 'E' ∧ p.getD 1 ' ' ≠ '*')
        ∨ (c = 'W' ∧ p.getD 2 ' ' ≠ '*') ∨ (c = 'S' ∧ p.getD 3 ' ' ≠ '*')) := by
  unfold ruleDirections
  split_ifs <;> simp_all [List.mem_append]

theorem stateDirections_mem (edges : List PRule) (c : Char) :
    c ∈ stateDirections edges ↔
      (c ∈ (['N', 'E', 'W', 'S'] : List Char)
        ∧ ∃ e ∈ edges, (upperPat e).getD (clookup picobot_direction_map c) ' ' ≠ '*') := by
  unfold stateDirections
  rw [List.mem_dedup, List.mem_flatten]
  constructor
  · rintro ⟨l, hl, hcl⟩
    rw [List.mem_map] at hl
    obtain ⟨p, hp, rfl⟩ := hl
    rw [List.mem_map] at hp
    obtain ⟨e, he, rfl⟩ := hp
    rw [mem_ruleDirections] at hcl
    rcases hcl with ⟨rfl, hne⟩ | ⟨rfl, hne⟩ | ⟨rfl, hne⟩ | ⟨rfl, hne⟩ <;>
      exact ⟨by decide, e, he, hne⟩
  · rintro ⟨hcin, e, he, hne⟩
    refine ⟨ruleDirections (upperPat e),
      List.mem_map_of_mem _ (List.mem_map_of_mem _ he), ?_⟩
    rw [mem_ruleDirections]
    simp only [List.mem_cons, List.not_mem_nil, or_false] at hcin
    rcases hcin with rfl | rfl | rfl | rfl
    · exact Or.inl ⟨rfl, hne⟩
    · exact Or.inr (Or.inl ⟨rfl, hne⟩)
    · exact Or.inr (Or.inr (Or.inl ⟨rfl, hne⟩))
    · exact Or.inr (Or.inr (Or.inr ⟨rfl, hne⟩))

theorem pollPhase_polled_names (dirs : List (Char × Nat)) (o : Nat) (bump : Nat → Nat) :
    (pollPhase dirs o bump).2.2.map Prod.fst = dirs.map Prod.fst := by
  induction dirs generalizing o with
  | nil => rfl
  | cons hd tl ih =>
    obtain ⟨n, code⟩ := hd
    simp only [pollPhase, List.map_cons, ih]

theorem map_pair_fst (l : List Char) (f : Char → Nat) :
    (l.map (fun c => (c, f c))).map Prod.fst = l := by
  induction l <;> simp_all

theorem engineStepEntry_polled (entry : Entry) (o : Nat) (bump : Nat → Nat) :
    (engineStepEntry entry o bump).polled = (pollPhase entry.1 o bump).2.2 := by
  cases h : alookup
      (transition (buildSensorWord (pollPhase entry.1 o bump).2.2) entry.2.2)
      entry.2.1 with
  | none => simp [engineStepEntry, h]
  | some dn => by_cases hX : dn.1 = 'X' <;> simp [engineStepEntry, h, hX]

theorem engineStepEntry_sensor (entry : Entry) (o : Nat) (bump : Nat → Nat) :
    (engineStepEntry entry o bump).sensor
      = buildSensorWord (pollPhase entry.1 o bump).2.2 := by
  cases h : alookup
      (transition (buildSensorWord (pollPhase entry.1 o bump).2.2) entry.2.2)
      entry.2.1 with
  | none => simp [engineStepEntry, h]
  | some dn => by_cases hX : dn.1 = 'X' <;> simp [engineStepEntry, h, hX]

/-- Claim C7 (confirmed): a compiled state's poll set consists exactly of
the axes whose slot is non-wildcard in at least one of the state's rule
patterns, and at runtime the engine probes exactly the axes of the poll
list (in particular, a state whose rules are all `****` polls no sensor
at all). -/
theorem c7_poll_set (edges : List PRule) (o : Nat) (bump : Nat → Nat)
    (h4 : ∀ e ∈ edges, e.sensor_state.length = 4) :
    (∀ c : Char, c ∈ stateDirections edges ↔
      (c ∈ (['N', 'E', 'W', 'S'] : List Char)
        ∧ ∃ e ∈ edges, (upperPat e).getD (clookup picobot_direction_map c) ' ' ≠ '*'))
    ∧ (engineStepEntry (compileState edges) o bump).polled.map Prod.fst
        = stateDirections edges
    ∧ ((∀ e ∈ edges, upperPat e = ['*', '*', '*', '*']) →
        stateDirections edges = []) := by
  refine ⟨fun c => stateDirections_mem edges c, ?_, ?_⟩
  · rw [engineStepEntry_polled, pollPhase_polled_names]
    show (((edges.map upperPat).map ruleDirections).flatten.dedup.map
        (fun c => (c, clookup create_direction_map c))).map Prod.fst
      = stateDirections edges
    rw [map_pair_fst]
    rfl
  · intro hall
    rw [List.eq_nil_iff_forall_not_mem]
    intro c hc
    rw [stateDirections_mem] at hc
    obtain ⟨hcin, e, he, hne⟩ := hc
    rw [hall e he] at hne
    have hlt : clookup picobot_direction_map c < 4 := by
      simp only [List.mem_cons, List.not_mem_nil, or_false] at hcin
      rcases hcin with rfl | rfl | rfl | rfl <;> decide
    interval_cases h : clookup picobot_direction_map c <;> simp_all

/-- Witness for `c7_poll_set`: a state with rules `N***` and `**E*`
(uppercased) polls exactly North and East. -/
theorem c7_poll_set_witness :
    ('N' ∈ stateDirections
        [⟨['0'], ['N', '*', '*', '*'], 'E', ['1']⟩,
         ⟨['0'], ['*', '*', 'E', '*'], 'W', ['0']⟩]
      ↔ ('N' ∈ (['N', 'E', 'W', 'S'] : List Char)
        ∧ ∃ e ∈ [⟨['0'], ['N', '*', '*', '*'], 'E', ['1']⟩,
                 (⟨['0'], ['*', '*', 'E', '*'], 'W', ['0']⟩ : PRule)],
            (upperPat e).getD (clookup picobot_direction_map 'N') ' ' ≠ '*'))
    ∧ (engineStepEntry
        (compileState [⟨['0'], ['N', '*', '*', '*'], 'E', ['1']⟩,
                       ⟨['0'], ['*', '*', 'E', '*'], 'W', ['0']⟩])
        0 (fun _ => 0)).polled.map Prod.fst
      = stateDirections [⟨['0'], ['N', '*', '*', '*'], 'E', ['1']⟩,
                         ⟨['0'], ['*', '*', 'E', '*'], 'W', ['0']⟩] :=
  have h := c7_poll_set
    [⟨['0'], ['N', '*', '*', '*'], 'E', ['1']⟩,
     ⟨['0'], ['*', '*', 'E', '*'], 'W', ['0']⟩]
    0 (fun _ => 0) (by decide)
  ⟨h.1 'N', h.2.1⟩

/-! ## No-match lemmas and Claim C8 -/

theorem transition_no_match (sensor : List Char) (l : List (List Char))
    (h : ∀ p ∈ l, patMatch p sensor = false) :
    transition sensor l = noSuchState := by
  induction l with
  | nil => rfl
  | cons p rest ih =>
    simp only [transition, h p (List.mem_cons_self _ _), Bool.false_eq_true, if_false]
    exact ih (fun q hq => h q (List.mem_cons_of_mem _ hq))

theorem transition_cases (sensor : List Char) (l : List (List Char)) :
    transition sensor l = noSuchState
    ∨ (transition sensor l ∈ l ∧ patMatch (transition sensor l) sensor = true) := by
  induction l with
  | nil => exact Or.inl rfl
  | cons p rest ih =>
    by_cases hm : patMatch p sensor
    · exact Or.inr (by simp [transition, hm])
    · rcases ih with hcase | ⟨hmem, hmatch⟩
      · exact Or.inl (by simp [transition, hm, hcase])
      · refine Or.inr ⟨?_, ?_⟩
        · simp only [transition, hm, Bool.false_eq_true, if_false]
          exact List.mem_cons_of_mem _ hmem
        · simp only [transition, hm, Bool.false_eq_true, if_false]
          exact hmatch

theorem engineStepEntry_of_lookup_none (entry : Entry) (o : Nat) (bump : Nat → Nat)
    (h : alookup
      (transition (buildSensorWord (pollPhase entry.1 o bump).2.2) entry.2.2)
      entry.2.1 = none) :
    engineStepEntry entry o bump
      = ⟨(pollPhase entry.1 o bump).2.2,
         buildSensorWord (pollPhase entry.1 o bump).2.2,
         .stuck, (pollPhase entry.1 o bump).1, (pollPhase entry.1 o bump).2.1⟩ := by
  simp [engineStepEntry, h]

/-- Claim C8 (confirmed): when no rule of the current state's ordered
pattern list matches the observed sensor word, the step ends in the
fatal lookup failure (`transition` returns the 13-character sentinel,
which can never be a 4-character pattern key), the engine emits nothing
beyond the polling commands, and no move or transition is issued. -/
theorem c8_no_match (edges : List PRule) (o : Nat) (bump : Nat → Nat)
    (h4 : ∀ e ∈ edges, e.sensor_state.length = 4)
    (hnm : ∀ p ∈ edges.map upperPat,
      patMatch p ((engineStepEntry (compileState edges) o bump).sensor) = false) :
    (engineStepEntry (compileState edges) o bump).outcome = .stuck
    ∧ (engineStepEntry (compileState edges) o bump).cmds
        = (pollPhase (compileState edges).1 o bump).1 := by
  rw [engineStepEntry_sensor] at hnm
  have hpats : (compileState edges).2.2 = edges.map upperPat := rfl
  have htr : transition
      (buildSensorWord (pollPhase (compileState edges).1 o bump).2.2)
      (compileState edges).2.2 = noSuchState := by
    rw [hpats]
    exact transition_no_match _ _ hnm
  have hkeys : alookup noSuchState (compileState edges).2.1 = none := by
    show alookup noSuchState
      (dictOf (edges.map (fun e => (upperPat e, (e.direction.toUpper, e.new_state))))) = none
    rw [alookup_dictOf]
    apply alookup_eq_none_of_not_mem
    rw [List.map_reverse, List.mem_reverse, List.map_map]
    intro hmem
    rw [List.mem_map] at hmem
    obtain ⟨e, he, heq⟩ := hmem
    have hlen : (upperPat e).length = 4 := by
      simpa [upperPat] using h4 e he
    have : (Prod.fst ∘ fun e => (upperPat e, (e.direction.toUpper, e.new_state))) e
        = upperPat e := rfl
    rw [this] at heq
    rw [heq] at hlen
    simp [noSuchState] at hlen
  have hnone : alookup
      (transition (buildSensorWord (pollPhase (compileState edges).1 o bump).2.2)
        (compileState edges).2.2)
      (compileState edges).2.1 = none := by
    rw [htr]; exact hkeys
  rw [engineStepEntry_of_lookup_none _ _ _ hnone]
  exact ⟨rfl, rfl⟩

/-- Witness for `c8_no_match`: a single rule `N***` with the probe
reporting clear yields observed word `X***`, which matches nothing; the
step is stuck with only the probe commands emitted. -/
theorem c8_no_match_witness :
    (engineStepEntry (compileState [⟨['0'], ['N', '*', '*', '*'], 'E', ['1']⟩])
        0 (fun _ => 0)).outcome = .stuck
    ∧ (engineStepEntry (compileState [⟨['0'], ['N', '*', '*', '*'], 'E', ['1']⟩])
        0 (fun _ => 0)).cmds
      = (pollPhase (compileState [⟨['0'], ['N', '*', '*', '*'], 'E', ['1']⟩]).1
          0 (fun _ => 0)).1 :=
  c8_no_match [⟨['0'], ['N', '*', '*', '*'], 'E', ['1']⟩] 0 (fun _ => 0)
    (by decide) (by decide)

/-! ## First-match lemmas and Claim C4 (amended) -/

theorem alookup_entries_eq_firstMatch (sensor : List Char) :
    ∀ (edges : List PRule),
      (∀ e ∈ edges, e.sensor_state.length = 4) →
      ((edges.map upperPat).Nodup) →
      alookup (transition sensor (edges.map upperPat))
          (edges.map (fun e => (upperPat e, (e.direction.toUpper, e.new_state))))
        = specFirstMatch edges sensor := by
  intro edges
  induction edges with
  | nil => intro _ _; rfl
  | cons e rest ih =>
    intro h4 hnd
    simp only [List.map_cons, List.nodup_cons] at hnd
    by_cases hm : patMatch (upperPat e) sensor
    · simp only [List.map_cons, transition, hm, if_true]
      simp [alookup, specFirstMatch, List.find?, hm]
    · have hstep : transition sensor (upperPat e :: rest.map upperPat)
          = transition sensor (rest.map upperPat) := by
        simp [transition, hm]
      have hne : transition sensor (rest.map upperPat) ≠ upperPat e := by
        rcases transition_cases sensor (rest.map upperPat) with hcase | ⟨_, hmatch⟩
        · rw [hcase]
          intro hcontra
          have hlen : (upperPat e).length = 4 := by
            simpa [upperPat] using h4 e (List.mem_cons_self _ _)
          rw [← hcontra] at hlen
          simp [noSuchState] at hlen
        · intro hcontra
          rw [hcontra] at hmatch
          exact absurd hmatch (by simpa using hm)
      simp only [List.map_cons, hstep, alookup, if_neg hne]
      rw [ih (fun q hq => h4 q (List.mem_cons_of_mem _ hq)) hnd.2]
      simp [specFirstMatch, List.find?, hm]

/-- Claim C4 (amended): when the state's uppercased rule patterns are
pairwise distinct, the engine executes exactly the action of the
lowest-declaration-index rule whose pattern matches the observed word
under wildcard semantics; when two rules of the same state have
character-identical patterns, the dict built by `make_state_machine`
keeps only the last one, so the engine executes the last such rule's
action instead (see the counterexample). -/
theorem c4_first_match (edges : List PRule) (sensor : List Char)
    (h4 : ∀ e ∈ edges, e.sensor_state.length = 4)
    (hnd : (edges.map upperPat).Nodup) :
    selectAction (compileState edges) sensor = specFirstMatch edges sensor := by
  show alookup (transition sensor (edges.map upperPat))
      (dictOf (edges.map (fun e => (upperPat e, (e.direction.toUpper, e.new_state)))))
    = specFirstMatch edges sensor
  rw [alookup_dictOf_nodup _ _ (by rw [List.map_map]; exact hnd)]
  exact alookup_entries_eq_firstMatch sensor edges h4 hnd

/-- Witness for `c4_first_match`: two distinct patterns `N***` and
`X***`; the observed word `N***` selects the first rule's action. -/
theorem c4_first_match_witness :
    selectAction
      (compileState [⟨['0'], ['N', '*', '*', '*'], 'E', ['1']⟩,
                     ⟨['0'], ['X', '*', '*', '*'], 'W', ['0']⟩])
      ['N', '*', '*', '*']
    = specFirstMatch [⟨['0'], ['N', '*', '*', '*'], 'E', ['1']⟩,
                      ⟨['0'], ['X', '*', '*', '*'], 'W', ['0']⟩]
        ['N', '*', '*', '*'] :=
  c4_first_match
    [⟨['0'], ['N', '*', '*', '*'], 'E', ['1']⟩,
     ⟨['0'], ['X', '*', '*', '*'], 'W', ['0']⟩]
    ['N', '*', '*', '*'] (by decide) (by decide)

/-! ## Grouping lemmas and Claim C5 (amended) -/

theorem groupConsecutive_cons_ne_nil (r : PRule) (rs : List PRule) :
    groupConsecutive (r :: rs) ≠ [] := by
  cases hgc : groupConsecutive rs with
  | nil => simp [groupConsecutive, hgc]
  | cons kg rest =>
    obtain ⟨k, g⟩ := kg
    by_cases h : r.state_num = k <;> simp [groupConsecutive, hgc, h]

theorem groupConsecutive_flatten (l : List PRule) :
    ((groupConsecutive l).map Prod.snd).flatten = l := by
  induction l with
  | nil => rfl
  | cons r rs ih =>
    cases hgc : groupConsecutive rs with
    | nil =>
      have hrs : rs = [] := by
        cases rs with
        | nil => rfl
        | cons a b => exact absurd hgc (groupConsecutive_cons_ne_nil a b)
      subst hrs
      simp [groupConsecutive]
    | cons kg rest =>
      obtain ⟨k, g⟩ := kg
      rw [hgc] at ih
      simp only [List.map_cons, List.flatten_cons] at ih
      by_cases h : r.state_num = k
      · simp only [groupConsecutive, hgc, h, if_true, List.map_cons,
          List.flatten_cons, List.cons_append]
        rw [ih]
      · simp only [groupConsecutive, hgc, h, if_false, List.map_cons,
          List.flatten_cons, List.singleton_append]
        rw [ih]

theorem groupConsecutive_key (l : List PRule) :
    ∀ kg ∈ groupConsecutive l, ∀ r ∈ kg.2, r.state_num = kg.1 := by
  induction l with
  | nil => intro kg hkg; cases hkg
  | cons r rs ih =>
    cases hgc : groupConsecutive rs with
    | nil =>
      intro kg hkg r1 hr1
      simp only [groupConsecutive, hgc, List.mem_singleton] at hkg
      subst hkg
      simp only [List.mem_singleton] at hr1
      subst hr1
      rfl
    | cons kg0 rest =>
      obtain ⟨k, g⟩ := kg0
      rw [hgc] at ih
      intro kg hkg r1 hr1
      by_cases h : r.state_num = k
      · simp only [groupConsecutive, hgc, h, if_true, List.mem_cons] at hkg
        rcases hkg with rfl | hmem
        · simp only [List.mem_cons] at hr1
          rcases hr1 with rfl | hr1mem
          · exact h
          · exact ih (k, g) (List.mem_cons_self _ _) r1 hr1mem
        · exact ih kg (List.mem_cons_of_mem _ hmem) r1 hr1
      · simp only [groupConsecutive, hgc, h, if_false, List.mem_cons] at hkg
        rcases hkg with rfl | hmem
        · simp only [List.mem_singleton] at hr1
          subst hr1
          rfl
        · exact ih kg (List.mem_cons.mpr hmem) r1 hr1

theorem groupConsecutive_snd_ne_nil (l : List PRule) :
    ∀ kg ∈ groupConsecutive l, kg.2 ≠ [] := by
  induction l with
  | nil => intro kg hkg; cases hkg
  | cons r rs ih =>
    cases hgc : groupConsecutive rs with
    | nil =>
      intro kg hkg
      simp only [groupConsecutive, hgc, List.mem_singleton] at hkg
      subst hkg
      simp
    | cons kg0 rest =>
      obtain ⟨k, g⟩ := kg0
      rw [hgc] at ih
      intro kg hkg
      by_cases h : r.state_num = k
      · simp only [groupConsecutive, hgc, h, if_true, List.mem_cons] at hkg
        rcases hkg with rfl | hmem
        · simp
        · exact ih kg (List.mem_cons_of_mem _ hmem)
      · simp only [groupConsecutive, hgc, h, if_false, List.mem_cons] at hkg
        rcases hkg with rfl | hmem
        · simp
        · exact ih kg (List.mem_cons.mpr hmem)

theorem alookup_chunks_filter (cl : List (List Char × List PRule)) (k : List Char)
    (hkey : ∀ kg ∈ cl, ∀ r ∈ kg.2, r.state_num = kg.1)
    (hne : ∀ kg ∈ cl, kg.2 ≠ [])
    (hnd : (cl.map Prod.fst).Nodup) :
    alookup k cl
      = (if ((cl.map Prod.snd).flatten.filter (fun r => decide (r.state_num = k))) = []
         then none
         else some ((cl.map Prod.snd).flatten.filter (fun r => decide (r.state_num = k)))) := by
  induction cl with
  | nil => rfl
  | cons kg0 rest ih =>
    obtain ⟨k0, g⟩ := kg0
    simp only [List.map_cons, List.nodup_cons] at hnd
    simp only [List.map_cons, List.flatten_cons, List.filter_append]
    by_cases hk : k = k0
    · subst hk
      have hg : g.filter (fun r => decide (r.state_num = k)) = g := by
        apply List.filter_eq_self.mpr
        intro r hr
        simp [hkey (k, g) (List.mem_cons_self _ _) r hr]
      have hrest : (rest.map Prod.snd).flatten.filter
          (fun r => decide (r.state_num = k)) = [] := by
        apply List.filter_eq_nil_iff.mpr
        intro r hr
        rw [List.mem_flatten] at hr
        obtain ⟨g1, hg1, hrg1⟩ := hr
        rw [List.mem_map] at hg1
        obtain ⟨kg1, hkg1, rfl⟩ := hg1
        have hkey1 := hkey kg1 (List.mem_cons_of_mem _ hkg1) r hrg1
        have hne1 : kg1.1 ≠ k := by
          intro hcontra
          exact hnd.1 (by rw [← hcontra]; exact List.mem_map_of_mem _ hkg1)
        simp [hkey1, hne1]
      rw [hg, hrest, List.append_nil]
      have hgne : g ≠ [] := hne (k, g) (List.mem_cons_self _ _)
      simp [alookup, hgne]
    · have hg : g.filter (fun r => decide (r.state_num = k)) = [] := by
        apply List.filter_eq_nil_iff.mpr
        intro r hr
        have := hkey (k0, g) (List.mem_cons_self _ _) r hr
        simp [this, Ne.symm hk]
      rw [hg, List.nil_append]
      rw [← ih (fun kg hkg => hkey kg (List.mem_cons_of_mem _ hkg))
          (fun kg hkg => hne kg (List.mem_cons_of_mem _ hkg)) hnd.2]
      simp [alookup, hk]

/-- Claim C5 (amended): `parse` maps each state number to the last
contiguous run of its well-formed rules (rules within the run kept in
declaration order); earlier non-contiguous runs of the same state number
are discarded by the dict overwrite.  In particular, whenever every
state's well-formed rules are contiguous in the input, every state
number maps to exactly the list of all its well-formed rules in
declaration order. -/
theorem c5_grouping (lines : List String) (k : List Char) :
    alookup k (parse lines)
      = alookup k (groupConsecutive (wellFormedRules lines)).reverse
    ∧ (((groupConsecutive (wellFormedRules lines)).map Prod.fst).Nodup →
        alookup k (parse lines)
          = if specStateRules lines k = [] then none
            else some (specStateRules lines k)) := by
  constructor
  · exact alookup_dictOf _ _
  · intro hnd
    show alookup k (dictOf (groupConsecutive (wellFormedRules lines))) = _
    rw [alookup_dictOf_nodup _ _ hnd]
    rw [alookup_chunks_filter (groupConsecutive (wellFormedRules lines)) k
      (groupConsecutive_key _) (groupConsecutive_snd_ne_nil _) hnd]
    rw [groupConsecutive_flatten]
    rfl

/-- Witness for `c5_grouping` at a contiguous two-state program: state 0
maps to both of its rules in declaration order. -/
theorem c5_grouping_witness :
    alookup ['0'] (parse ["0 N*** -> E 0", "0 X*** -> W 0", "1 **** -> N 1"])
      = alookup ['0']
          (groupConsecutive
            (wellFormedRules ["0 N*** -> E 0", "0 X*** -> W 0", "1 **** -> N 1"])).reverse
    ∧ alookup ['0'] (parse ["0 N*** -> E 0", "0 X*** -> W 0", "1 **** -> N 1"])
      = if specStateRules ["0 N*** -> E 0", "0 X*** -> W 0", "1 **** -> N 1"] ['0'] = []
        then none
        else some (specStateRules ["0 N*** -> E 0", "0 X*** -> W 0", "1 **** -> N 1"] ['0']) :=
  have h := c5_grouping ["0 N*** -> E 0", "0 X*** -> W 0", "1 **** -> N 1"] ['0']
  ⟨h.1, h.2 (by decide)⟩
